import Mathlib

/-!
A shallow embedding of `main.c` of bin2sim.

`bin2sim` wraps a raw firmware image into an IAR "Simple Code" container:
a 14-byte header, one data record (12-byte descriptor followed by the image),
an end record (one marker byte) and a 32-bit checksum.

Conventions of the embedding

* A byte (`unsigned char`) is a `Fin 256`; a store into an `unsigned char`
  is `toByte`, reduction modulo 256.
* `unsigned int` is 32 bits wide and is a `Nat` reduced modulo `2^32`
  wherever the C code converts or wraps.  `int` is 32 bits wide; an `int`
  that would exceed `INT_MAX` is undefined behaviour, and a run that gets
  there has no result (`none`).  `long` (the result of `ftell`) is
  64 bits wide (LP64), so a file position is never truncated by `ftell`
  itself, only by the conversion to `unsigned int` in `GetFileSize`.
* A `FILE` is its byte contents and its position indicator, together with
  two fault parameters of the environment: how many more bytes the stream
  will deliver / accept before reads / writes fail (`none`: never fails).
* Console output (`printf`) of the stages is not part of the embedding; what
  `main` itself prints is.
-/

namespace Bin2Sim

/-! ## Machine integers and bytes -/

/-- An `unsigned char`. -/
abbrev Byte := Fin 256

/-- Conversion of an integer value to `unsigned char`. -/
def toByte (n : Nat) : Byte := ⟨n % 256, Nat.mod_lt n (by decide)⟩

/-- The number of values of an `unsigned int`, `2^32`. -/
def UINT_MOD : Nat := 4294967296

/-- Conversion of an integer value to `unsigned int`. -/
def toUInt (n : Nat) : Nat := n % UINT_MOD

/-- The C operator `~` on an `unsigned int`: `UINT_MAX - x`. -/
def bitNot (x : Nat) : Nat := (UINT_MOD - 1) - toUInt x

/-- The largest value of an `int`, `2^31 - 1`. -/
def INT_MAX : Nat := 2147483647

/-- The constant `HEADER_SIZE_BYTES`. -/
def HEADER_SIZE_BYTES : Nat := 14

/-! ## Streams -/

/-- A stdio stream on a regular file. -/
structure FILE where
  /-- The bytes of the file. -/
  data : List Byte
  /-- The file position indicator. -/
  pos : Nat
  /-- Fault parameter: the number of bytes that can still be read before a
  read error occurs (`none`: reads never fail). -/
  rlimit : Option Nat
  /-- Fault parameter: the number of bytes the stream still accepts before
  writes fail (`none`: writes never fail). -/
  wlimit : Option Nat
deriving DecidableEq, Repr

/-- A freshly opened stream on a file with the given contents, on which no
read or write error occurs. -/
def stream (contents : List Byte) : FILE :=
  { data := contents, pos := 0, rlimit := none, wlimit := none }

/-- The call `fseek(fp, offset, SEEK_SET)`. -/
def fseek_SET (fp : FILE) (offset : Nat) : FILE :=
  { fp with pos := offset }

/-- The call `fseek(fp, 0, SEEK_END)`. -/
def fseek_END (fp : FILE) : FILE :=
  { fp with pos := fp.data.length }

/-- The call `ftell(fp)`. -/
def ftell (fp : FILE) : Nat := fp.pos

/-- The call `fread(&fileByte, 1, 1, fp)`: `some b` when one byte was read
(return value 1), `none` when nothing was read (return value 0, at end of
file or on a read error). -/
def fread (fp : FILE) : Option Byte × FILE :=
  match fp.rlimit with
  | some 0 => (none, fp)
  | _ =>
    match fp.data[fp.pos]? with
    | none => (none, fp)
    | some b =>
      (some b, { fp with pos := fp.pos + 1, rlimit := fp.rlimit.map (· - 1) })

/-- The number of bytes a write of `n` bytes transfers. -/
def accepted (fp : FILE) (n : Nat) : Nat :=
  match fp.wlimit with
  | none => n
  | some w => min n w

/-- The call `fwrite(ptr, 1, nmemb, fp)`: the first `nmemb` bytes of `ptr`
are written at the position indicator, over the bytes that are there and
extending the file where it ends (a gap between the end of the file and the
position reads as zero bytes).  Returns the number of bytes written. -/
def fwrite (ptr : List Byte) (nmemb : Nat) (fp : FILE) : Nat × FILE :=
  let k := accepted fp (ptr.take nmemb).length
  if k = 0 then (0, fp)
  else
    (k, { fp with
            data := fp.data.take fp.pos ++ List.replicate (fp.pos - fp.data.length) 0
                      ++ (ptr.take nmemb).take k ++ fp.data.drop (fp.pos + k)
            pos := fp.pos + k
            wlimit := fp.wlimit.map (· - k) })

/-! ## The program -/

/-- The function `GetFileSize`: seeks to the end and returns the position
there, converted to `unsigned int`. -/
def GetFileSize (fp : FILE) : Nat × FILE :=
  let fp := fseek_END fp
  (toUInt (ftell fp), fp)

/-- The function `WriteHeader`. -/
def WriteHeader (fout : FILE) (program_size : Nat) : Nat × FILE :=
  let header : List Byte :=
    [0x7f, 0x49, 0x41, 0x52, 0x00, 0x00, 0x00, 0x00, 0x00, 0x00, 0x00, 0x00, 0x00, 0x00]
  let header := header.set 8 (toByte ((program_size &&& 0xFF000000) >>> 24))
  let header := header.set 9 (toByte ((program_size &&& 0x00FF0000) >>> 16))
  let header := header.set 10 (toByte ((program_size &&& 0x0000FF00) >>> 8))
  let header := header.set 11 (toByte ((program_size &&& 0x000000FF) >>> 0))
  let fout := fseek_SET fout 0
  let (rb, fout) := fwrite header HEADER_SIZE_BYTES fout
  if rb ≠ HEADER_SIZE_BYTES then (1, fout) else (0, fout)

/-- The `for` loop of `WriteDataRecord`, from its test
`i < number_of_program_bytes` on, for a value `0 <= i <= INT_MAX` of the
`int` counter (the test converts `i` to `unsigned int`, which leaves such a
value as it is).  The result is `some (1, ..)` when the function returns 1
from inside the loop, `some (0, ..)` when the loop runs to its end, and
`none` when `i++` is reached with `i = INT_MAX`: the signed counter
overflows, which is undefined behaviour. -/
def WriteDataRecord_loop (number_of_program_bytes i : Nat) (fin fout : FILE) :
    Option (Nat × FILE × FILE) :=
  if h : i < number_of_program_bytes then
    match fread fin with
    | (none, fin) => some (1, fin, fout)
    | (some fileByte, fin) =>
      match fwrite [fileByte] 1 fout with
      | (wb, fout) =>
        if wb = 0 then some (1, fin, fout)
        else if i = INT_MAX then none
        else WriteDataRecord_loop number_of_program_bytes (i + 1) fin fout
  else some (0, fin, fout)
termination_by number_of_program_bytes - i
decreasing_by omega

/-- The function `WriteDataRecord`; `none` when its loop overflows the
counter. -/
def WriteDataRecord (fin fout : FILE) (start_address : Nat) :
    Option (Nat × FILE × FILE) :=
  let (number_of_program_bytes, fin) := GetFileSize fin
  let record : List Byte :=
    [0x01, 0x01, 0x00, 0x00, 0x00, 0x00, 0x00, 0x00, 0x00, 0x00, 0x00, 0x00]
  let fin := fseek_SET fin 0
  let fout := fseek_SET fout HEADER_SIZE_BYTES
  let record := record.set 4 (toByte ((start_address &&& 0xFF000000) >>> 24))
  let record := record.set 5 (toByte ((start_address &&& 0x00FF0000) >>> 16))
  let record := record.set 6 (toByte ((start_address &&& 0x0000FF00) >>> 8))
  let record := record.set 7 (toByte ((start_address &&& 0x000000FF) >>> 0))
  let record := record.set 8 (toByte ((number_of_program_bytes &&& 0xFF000000) >>> 24))
  let record := record.set 9 (toByte ((number_of_program_bytes &&& 0x00FF0000) >>> 16))
  let record := record.set 10 (toByte ((number_of_program_bytes &&& 0x0000FF00) >>> 8))
  let record := record.set 11 (toByte ((number_of_program_bytes &&& 0x000000FF) >>> 0))
  let (wb, fout) := fwrite record 12 fout
  if wb = 0 then some (1, fin, fout)
  else WriteDataRecord_loop number_of_program_bytes 0 fin fout

/-- The `while` loop of `CalculateChecksum`: adds the bytes read to the
32-bit accumulator until `fread` returns 0. -/
def CalculateChecksum_loop (fp : FILE) (checksum : Nat) : Nat × FILE :=
  match h : fread fp with
  | (none, fp1) => (checksum, fp1)
  | (some fileByte, fp1) => CalculateChecksum_loop fp1 (toUInt (checksum + fileByte.val))
termination_by fp.data.length - fp.pos
decreasing_by
  unfold fread at h
  split at h
  · simp at h
  · split at h
    · simp at h
    · rename_i b hb
      have hlt : fp.pos < fp.data.length := by
        rcases List.getElem?_eq_some.mp hb with ⟨hl, _⟩
        exact hl
      simp only [Prod.mk.injEq, Option.some.injEq] at h
      obtain ⟨_, rfl⟩ := h
      simp only
      omega

/-- The function `CalculateChecksum`. -/
def CalculateChecksum (fp : FILE) : Nat × FILE :=
  let fp := fseek_SET fp 0
  let (checksum, fp) := CalculateChecksum_loop fp 0
  (toUInt (bitNot checksum + 1), fp)

/-- The function `WriteEndRecord`. -/
def WriteEndRecord (fout : FILE) : Nat × FILE :=
  let record : List Byte := [0x03, 0x00, 0x00, 0x00, 0x00]
  let (foutSize, fout) := GetFileSize fout
  let fout := fseek_SET fout foutSize
  let (wb, fout) := fwrite record 1 fout
  if wb = 0 then (1, fout)
  else
    let (checksum, fout) := CalculateChecksum fout
    let record := record.set 1 (toByte ((checksum &&& 0xFF000000) >>> 24))
    let record := record.set 2 (toByte ((checksum &&& 0x00FF0000) >>> 16))
    let record := record.set 3 (toByte ((checksum &&& 0x0000FF00) >>> 8))
    let record := record.set 4 (toByte ((checksum &&& 0x000000FF) >>> 0))
    let (wb, fout) := fwrite (record.drop 1) 4 fout
    if wb = 0 then (1, fout) else (0, fout)

/-- What a run of the three stages of `main` leaves behind: the value each
stage returned (`none` for a stage that was not run) and the two streams as
they are when `main` reaches the label `close`. -/
structure Run where
  /-- Return value of `WriteHeader`. -/
  header : Option Nat
  /-- Return value of `WriteDataRecord`. -/
  dataRecord : Option Nat
  /-- Return value of `WriteEndRecord`. -/
  endRecord : Option Nat
  /-- The input stream. -/
  fin : FILE
  /-- The output stream. -/
  fout : FILE
deriving DecidableEq, Repr

/-- The part of `main` from the computation of `program_size` to the label
`close`, on the two opened streams; `none` when the behaviour of
`WriteDataRecord` is undefined. -/
def mainStages (fin fout : FILE) (start_address : Nat) : Option Run :=
  let (program_size, fin) := GetFileSize fin
  let (r1, fout) := WriteHeader fout program_size
  if r1 ≠ 0 then
    some { header := some r1, dataRecord := none, endRecord := none, fin := fin, fout := fout }
  else
    match WriteDataRecord fin fout start_address with
    | none => none
    | some (r2, fin, fout) =>
      if r2 ≠ 0 then
        some { header := some r1, dataRecord := some r2, endRecord := none, fin := fin,
               fout := fout }
      else
        let (r3, fout) := WriteEndRecord fout
        some { header := some r1, dataRecord := some r2, endRecord := some r3, fin := fin,
               fout := fout }

/-! ## The container format, as a function of the image -/

/-- The big-endian encoding of the low 32 bits of `n` in four bytes. -/
def be32 (n : Nat) : List Byte :=
  [toByte (n / 2 ^ 24), toByte (n / 2 ^ 16), toByte (n / 2 ^ 8), toByte n]

/-- The unsigned integer that a sequence of bytes denotes when it is read
big-endian (most significant byte first). -/
def beValue (bs : List Byte) : Nat :=
  bs.foldl (fun v b => 256 * v + b.val) 0

/-- The sum of the zero-extended byte values of a sequence, accumulated
modulo `2^32`. -/
def byteSum (bs : List Byte) : Nat :=
  bs.foldl (fun s b => toUInt (s + b.val)) 0

/-- The two's-complement negation `(0xFFFFFFFF - s + 1) mod 2^32`. -/
def negate32 (s : Nat) : Nat := (0xFFFFFFFF - s + 1) % 2 ^ 32

/-- The 14 bytes of a file header announcing `n` bytes of program. -/
def headerBytes (n : Nat) : List Byte :=
  [0x7f, 0x49, 0x41, 0x52] ++ [0x00, 0x00, 0x00, 0x00] ++ be32 n ++ [0x00, 0x00]

/-- The 12 bytes of the descriptor of a data record of `n` bytes loaded at
address `a`. -/
def recordBytes (a n : Nat) : List Byte :=
  [0x01, 0x01, 0x00, 0x00] ++ be32 a ++ be32 n

/-- The bytes of the container up to and including the end marker, for the
image `p` loaded at address `a`. -/
def bodyBytes (a : Nat) (p : List Byte) : List Byte :=
  headerBytes p.length ++ recordBytes a p.length ++ p ++ [0x03]

/-- The whole container for the image `p` loaded at address `a`. -/
def simBytes (a : Nat) (p : List Byte) : List Byte :=
  bodyBytes a p ++ be32 (negate32 (byteSum (bodyBytes a p)))

/-- The contents of a file `d` after `WriteEndRecord` has written the end
marker: the marker goes to the offset `GetFileSize` reports, which is the
end of the file when its length fits in an `unsigned int`. -/
def withMarker (d : List Byte) : List Byte :=
  d.take (toUInt d.length) ++ [0x03] ++ d.drop (toUInt d.length + 1)

/-! ## The program entry point -/

/-- What `main` finds outside the program.  The paths `argv[1]` and `argv[2]`
are taken to name two different files. -/
structure Env where
  /-- The contents of the file `argv[1]` names; `none` when
  `fopen(argv[1], "rb")` fails. -/
  input : Option (List Byte)
  /-- Fault parameter of the input stream: how many bytes can be read from
  it before a read error (`none`: reads never fail). -/
  inputReads : Option Nat
  /-- Whether `fopen(argv[2], "w+b")` succeeds. -/
  outputOpens : Bool
  /-- The contents of the file `argv[2]` names before the run; `none` when
  there is no such file. -/
  prior : Option (List Byte)
  /-- Fault parameter of the output stream for reads. -/
  outputReads : Option Nat
  /-- Fault parameter of the output stream: how many bytes it accepts before
  writes fail (`none`: writes never fail). -/
  outputWrites : Option Nat
deriving DecidableEq, Repr

/-- What a run of `main` leaves behind. -/
structure Outcome where
  /-- The value `main` returns, the exit code of the process. -/
  exit : Nat
  /-- What `main` itself printed (the messages of the stages are not part of
  the embedding). -/
  printed : List String
  /-- Whether `fopen(argv[1], "rb")` was called. -/
  fopenIn : Bool
  /-- Whether `fopen(argv[2], "w+b")` was called. -/
  fopenOut : Bool
  /-- Whether `fclose(fin)` was called. -/
  fcloseIn : Bool
  /-- Whether `fclose(fout)` was called. -/
  fcloseOut : Bool
  /-- The stages, when `main` reached them. -/
  run : Option Run
  /-- The contents of the file `argv[2]` names when the process has exited;
  `none` when there is no such file. -/
  output : Option (List Byte)
deriving DecidableEq, Repr

/-- The three lines printed at the label `paramError`. -/
def usageMessage : List String :=
  ["Usage: bin2sim [FILE IN] [FILE OUT] [OPTION]\r\n",
   "Options:\r\n",
   "  -s [start address]        decimal address where binary data should be written (default 0).\r\n"]

/-- The character `s[i]` of a C string: the NUL character at its end. -/
def charAt (s : String) (i : Nat) : Char := s.toList.getD i (Char.ofNat 0)

/-- The value `main` gives `start_address` from the arguments, `none` when
it jumps to `paramError` instead: 0 unless there are five arguments, in
which case `argv[3]` has to begin with `-s` and `argv[4]` is converted by
`strtoul` and then to `unsigned int`. -/
def start_address_of (strtoul : String → Nat) (argv : List String) : Option Nat :=
  if argv.length = 5 then
    if charAt (argv.getD 3 "") 0 = '-' then
      if charAt (argv.getD 3 "") 1 = 's' then
        some (toUInt (strtoul (argv.getD 4 "")))
      else none
    else none
  else some 0

/-- The function `main`, on the argument vector `argv` (with
`argc = argv.length`).  The library function `strtoul(s, NULL, 10)` is a
parameter.  A successful `fopen(argv[2], "w+b")` creates the file or
truncates it to length zero; streams still open when `main` returns are
closed by the exit of the process, so the output file then holds what was
written to its stream.  The result is `none` when the behaviour of the
stages is undefined. -/
def main (strtoul : String → Nat) (env : Env) (argv : List String) : Option Outcome :=
  let argc := argv.length
  let paramError (fopened : Bool) (output : Option (List Byte)) : Outcome :=
    { exit := 1, printed := usageMessage, fopenIn := fopened, fopenOut := fopened,
      fcloseIn := false, fcloseOut := false, run := none, output := output }
  if argc ≠ 3 ∧ argc ≠ 5 then some (paramError false env.prior)
  else
    match env.input with
    | none =>
      some { exit := 1, printed := ["Could not open input file.\r\n"], fopenIn := true,
             fopenOut := false, fcloseIn := false, fcloseOut := false, run := none,
             output := env.prior }
    | some contents =>
      let fin : FILE := { data := contents, pos := 0, rlimit := env.inputReads, wlimit := none }
      if env.outputOpens = false then
        some { exit := 1, printed := ["Could not open output file.\r\n"], fopenIn := true,
               fopenOut := true, fcloseIn := false, fcloseOut := false, run := none,
               output := env.prior }
      else
        let fout : FILE :=
          { data := [], pos := 0, rlimit := env.outputReads, wlimit := env.outputWrites }
        match start_address_of strtoul argv with
        | none => some (paramError true (some []))
        | some start_address =>
          match mainStages fin fout start_address with
          | none => none
          | some r =>
            some { exit := 0, printed := [], fopenIn := true, fopenOut := true,
                   fcloseIn := true, fcloseOut := true, run := some r,
                   output := some r.fout.data }

theorem toByte_mod (n : Nat) : toByte (n % 256) = toByte n := by
  apply Fin.ext
  simp [toByte]

theorem toByte_val (n : Nat) : (toByte n).val = n % 256 := rfl

theorem and_shift (n k : Nat) :
    (n &&& ((2 ^ 8 - 1) <<< k)) >>> k = (n / 2 ^ k) % 2 ^ 8 := by
  apply Nat.eq_of_testBit_eq
  intro i
  rw [Nat.testBit_shiftRight, Nat.testBit_and, Nat.testBit_shiftLeft, Nat.testBit_mod_two_pow,
    Nat.testBit_two_pow_sub_one, ← Nat.shiftRight_eq_div_pow, Nat.testBit_shiftRight]
  simp [Bool.and_comm]

theorem field3 (n : Nat) : toByte ((n &&& 0xFF000000) >>> 24) = toByte (n / 2 ^ 24) := by
  rw [← toByte_mod (n / 2 ^ 24)]
  exact congrArg toByte (and_shift n 24)

theorem field2 (n : Nat) : toByte ((n &&& 0x00FF0000) >>> 16) = toByte (n / 2 ^ 16) := by
  rw [← toByte_mod (n / 2 ^ 16)]
  exact congrArg toByte (and_shift n 16)

theorem field1 (n : Nat) : toByte ((n &&& 0x0000FF00) >>> 8) = toByte (n / 2 ^ 8) := by
  rw [← toByte_mod (n / 2 ^ 8)]
  exact congrArg toByte (and_shift n 8)

theorem field0 (n : Nat) : toByte ((n &&& 0x000000FF) >>> 0) = toByte n := by
  rw [← toByte_mod n]
  have h := and_shift n 0
  simp only [pow_zero, Nat.div_one] at h
  exact congrArg toByte h

theorem be32_length (n : Nat) : (be32 n).length = 4 := rfl

theorem beValue_be32 (n : Nat) (h : n < 2 ^ 32) : beValue (be32 n) = n := by
  simp only [beValue, be32, List.foldl, toByte_val]
  omega


/-! ## Streams on which no read or write fails -/

theorem fread_none (d : List Byte) (pos : Nat) (w : Option Nat) (h : d.length ≤ pos) :
    fread ⟨d, pos, none, w⟩ = (none, ⟨d, pos, none, w⟩) := by
  simp [fread, List.getElem?_eq_none h]

theorem fread_some (d : List Byte) (pos : Nat) (w : Option Nat) (h : pos < d.length) :
    fread ⟨d, pos, none, w⟩ = (some d[pos], ⟨d, pos + 1, none, w⟩) := by
  simp [fread, List.getElem?_eq_getElem h]

theorem fwrite_over (ptr : List Byte) (nmemb : Nat) (d : List Byte) (pos : Nat)
    (r : Option Nat) (hp : pos ≤ d.length) (hne : (ptr.take nmemb).length ≠ 0) :
    fwrite ptr nmemb ⟨d, pos, r, none⟩ =
      ((ptr.take nmemb).length,
        ⟨d.take pos ++ ptr.take nmemb ++ d.drop (pos + (ptr.take nmemb).length),
          pos + (ptr.take nmemb).length, r, none⟩) := by
  simp only [fwrite, accepted, if_neg hne, Nat.sub_eq_zero_of_le hp, List.replicate_zero,
    List.append_nil, List.take_length, Option.map_none']

theorem fwrite_end (ptr : List Byte) (nmemb : Nat) (d : List Byte)
    (r : Option Nat) (hne : (ptr.take nmemb).length ≠ 0) :
    fwrite ptr nmemb ⟨d, d.length, r, none⟩ =
      ((ptr.take nmemb).length,
        ⟨d ++ ptr.take nmemb, d.length + (ptr.take nmemb).length, r, none⟩) := by
  rw [fwrite_over ptr nmemb d d.length r (Nat.le_refl _) hne]
  simp

theorem byteSum_step (s : Nat) (bs : List Byte) :
    List.foldl (fun s b => toUInt (s + b.val)) s bs < UINT_MOD ∨ bs = [] := by
  induction bs using List.reverseRecOn with
  | nil => exact Or.inr rfl
  | append_singleton l b _ =>
    left
    rw [List.foldl_append]
    exact Nat.mod_lt _ (by decide)

theorem byteSum_lt (bs : List Byte) : byteSum bs < UINT_MOD := by
  rcases byteSum_step 0 bs with h | h
  · exact h
  · subst h
    decide

theorem CalculateChecksum_loop_eq (d : List Byte) (w : Option Nat) :
    ∀ (k pos c : Nat), pos ≤ d.length → d.length - pos = k →
      CalculateChecksum_loop ⟨d, pos, none, w⟩ c =
        (List.foldl (fun s b => toUInt (s + b.val)) c (d.drop pos), ⟨d, d.length, none, w⟩) := by
  intro k
  induction k with
  | zero =>
    intro pos c hle hk
    have hpos : pos = d.length := by omega
    subst hpos
    rw [CalculateChecksum_loop]
    split
    · rename_i fp1 heq
      rw [fread_none d d.length w (Nat.le_refl _)] at heq
      simp only [Prod.mk.injEq, true_and] at heq
      simp [← heq]
    · rename_i b fp1 heq
      rw [fread_none d d.length w (Nat.le_refl _)] at heq
      simp at heq
  | succ k ih =>
    intro pos c hle hk
    have hlt : pos < d.length := by omega
    rw [CalculateChecksum_loop]
    split
    · rename_i fp1 heq
      rw [fread_some d pos w hlt] at heq
      simp at heq
    · rename_i b fp1 heq
      rw [fread_some d pos w hlt] at heq
      simp only [Prod.mk.injEq, Option.some.injEq] at heq
      obtain ⟨hb, hfp⟩ := heq
      subst hb hfp
      rw [ih (pos + 1) _ (by omega) (by omega), List.drop_eq_getElem_cons hlt]
      rfl

theorem CalculateChecksum_eq (d : List Byte) (pos : Nat) (w : Option Nat) :
    CalculateChecksum ⟨d, pos, none, w⟩ = (negate32 (byteSum d), ⟨d, d.length, none, w⟩) := by
  simp only [CalculateChecksum, fseek_SET]
  rw [CalculateChecksum_loop_eq d w d.length 0 0 (Nat.zero_le _) rfl]
  have h := byteSum_lt d
  simp only [List.drop_zero, Prod.mk.injEq, and_true]
  change toUInt (bitNot (byteSum d) + 1) = negate32 (byteSum d)
  generalize byteSum d = s at h
  simp only [toUInt, bitNot, negate32, UINT_MOD] at h ⊢
  omega


/-! ## The stages on streams without faults -/

theorem GetFileSize_eq (d : List Byte) (pos : Nat) (r w : Option Nat) :
    GetFileSize ⟨d, pos, r, w⟩ = (toUInt d.length, ⟨d, d.length, r, w⟩) := rfl

theorem WriteHeader_eq (d : List Byte) (pos : Nat) (r : Option Nat) (n : Nat) :
    WriteHeader ⟨d, pos, r, none⟩ n = (0, ⟨headerBytes n ++ d.drop 14, 14, r, none⟩) := by
  simp only [WriteHeader, fseek_SET, List.set, field3, field2, field1, field0]
  rw [fwrite_over _ _ d 0 r (Nat.zero_le _) (by simp [HEADER_SIZE_BYTES])]
  simp [HEADER_SIZE_BYTES, headerBytes, be32]

theorem WriteDataRecord_loop_done (n i : Nat) (fin fout : FILE) (h : ¬ i < n) :
    WriteDataRecord_loop n i fin fout = some (0, fin, fout) := by
  rw [WriteDataRecord_loop, dif_neg h]

/-- One iteration of the copy loop in which a byte is read and written. -/
theorem WriteDataRecord_loop_copy (n i : Nat) (fin fin1 fout fout1 : FILE) (b : Byte)
    (wb : Nat) (h : i < n) (hr : fread fin = (some b, fin1))
    (hw : fwrite [b] 1 fout = (wb, fout1)) (hwb : wb ≠ 0) :
    WriteDataRecord_loop n i fin fout =
      if i = INT_MAX then none else WriteDataRecord_loop n (i + 1) fin1 fout1 := by
  rw [WriteDataRecord_loop, dif_pos h, hr]
  simp only [hw, if_neg hwb]

theorem WriteDataRecord_loop_eq (p : List Byte) (w r : Option Nat) (n : Nat)
    (hn : n ≤ p.length) (hmax : n ≤ INT_MAX) :
    ∀ (todo i : Nat) (d : List Byte), i + todo = n →
      WriteDataRecord_loop n i ⟨p, i, none, w⟩ ⟨d, d.length, r, none⟩ =
        some (0, ⟨p, n, none, w⟩,
          ⟨d ++ (p.drop i).take todo, d.length + todo, r, none⟩) := by
  intro todo
  induction todo with
  | zero =>
    intro i d hi
    have : i = n := by omega
    subst this
    rw [WriteDataRecord_loop_done _ _ _ _ (Nat.lt_irrefl _)]
    simp
  | succ todo ih =>
    intro i d hi
    have hlt : i < p.length := by omega
    rw [WriteDataRecord_loop_copy n i _ _ _ _ _ _ (by omega) (fread_some p i w hlt)
      (fwrite_end [p[i]] 1 d r (by simp)) (by simp), if_neg (by omega)]
    have h := ih (i + 1) (d ++ [p[i]]) (by omega)
    simp only [List.take_succ_cons, List.take_zero, List.length_singleton]
    simp only [List.length_append, List.length_singleton] at h
    rw [h]
    simp only [Nat.add_assoc, Nat.add_comm 1 todo, List.append_assoc, List.singleton_append,
      Option.some.injEq, Prod.mk.injEq, FILE.mk.injEq, List.append_cancel_left_eq, and_true,
      true_and]
    rw [List.drop_eq_getElem_cons hlt, List.take_succ_cons]

theorem WriteDataRecord_eq (p d : List Byte) (ipos opos : Nat) (w r : Option Nat) (a : Nat)
    (hd : d.length = 14) (hmax : toUInt p.length ≤ INT_MAX) :
    WriteDataRecord ⟨p, ipos, none, w⟩ ⟨d, opos, r, none⟩ a =
      some (0, ⟨p, toUInt p.length, none, w⟩,
        ⟨d ++ recordBytes a (toUInt p.length) ++ p.take (toUInt p.length),
          26 + toUInt p.length, r, none⟩) := by
  have hn : toUInt p.length ≤ p.length := Nat.mod_le _ _
  simp only [WriteDataRecord, GetFileSize_eq, fseek_SET, List.set, field3, field2, field1,
    field0, HEADER_SIZE_BYTES]
  rw [← hd, fwrite_end _ _ d r (by simp)]
  simp only [List.take_succ_cons, List.take_zero, List.length_cons, List.length_nil,
    Nat.succ_ne_zero, if_false]
  have h := WriteDataRecord_loop_eq p w r (toUInt p.length) hn hmax (toUInt p.length) 0
    (d ++ recordBytes a (toUInt p.length)) (Nat.zero_add _)
  simp only [List.length_append, recordBytes, be32, List.length_cons, List.length_nil,
    List.cons_append, List.nil_append, List.drop_zero, Nat.zero_add] at h
  simp only [recordBytes, be32, List.cons_append, List.nil_append]
  rw [h]
  simp [hd, Nat.add_assoc]

theorem WriteEndRecord_eq (d : List Byte) (pos : Nat) :
    WriteEndRecord ⟨d, pos, none, none⟩ =
      (0, ⟨withMarker d ++ be32 (negate32 (byteSum (withMarker d))),
        (withMarker d).length + 4, none, none⟩) := by
  have hn : toUInt d.length ≤ d.length := Nat.mod_le _ _
  simp only [WriteEndRecord, GetFileSize_eq, fseek_SET]
  rw [fwrite_over _ _ d _ none hn (by simp)]
  simp only [List.take_succ_cons, List.take_zero, List.length_singleton, Nat.succ_ne_zero,
    if_false]
  rw [CalculateChecksum_eq]
  simp only [List.set, field3, field2, field1, field0, List.drop_succ_cons, List.drop_zero]
  rw [fwrite_end _ _ _ none (by simp)]
  simp [withMarker, be32]

/-! ## The output file in closed form -/

theorem toUInt_of_lt (n : Nat) (h : n < UINT_MOD) : toUInt n = n := Nat.mod_eq_of_lt h

theorem headerBytes_length (n : Nat) : (headerBytes n).length = 14 := rfl

theorem recordBytes_length (a n : Nat) : (recordBytes a n).length = 12 := rfl

theorem bodyBytes_length (a : Nat) (p : List Byte) : (bodyBytes a p).length = p.length + 27 := by
  simp only [bodyBytes, List.length_append, headerBytes_length, recordBytes_length,
    List.length_singleton]
  omega

theorem simBytes_length (a : Nat) (p : List Byte) : (simBytes a p).length = p.length + 31 := by
  simp only [simBytes, List.length_append, bodyBytes_length, be32_length]

theorem withMarker_of_lt (d : List Byte) (h : d.length < UINT_MOD) :
    withMarker d = d ++ [0x03] := by
  simp [withMarker, toUInt_of_lt d.length h]

/-- The run of the three stages on a freshly opened input holding `p` and a
freshly created output, when the payload is short enough for the `int`
counter of the copy loop. -/
theorem mainStages_small (p : List Byte) (a : Nat) (h : p.length ≤ INT_MAX) :
    mainStages (stream p) (stream []) a =
      some { header := some 0, dataRecord := some 0, endRecord := some 0
             fin := ⟨p, p.length, none, none⟩
             fout := ⟨simBytes a p, p.length + 31, none, none⟩ } := by
  have hp : toUInt p.length = p.length :=
    toUInt_of_lt _ (Nat.lt_of_le_of_lt h (by decide))
  have hl : (headerBytes p.length ++ recordBytes a p.length ++ p).length < UINT_MOD := by
    rw [List.length_append, List.length_append, headerBytes_length, recordBytes_length]
    unfold INT_MAX at h
    unfold UINT_MOD
    omega
  unfold mainStages stream
  rw [GetFileSize_eq]
  dsimp only
  rw [WriteHeader_eq]
  dsimp only
  rw [List.drop_nil, List.append_nil,
    WriteDataRecord_eq p _ _ _ none none a (by simp [headerBytes, be32]) (by rw [hp]; exact h)]
  dsimp only
  rw [WriteEndRecord_eq, if_neg (by decide), if_neg (by decide), hp, List.take_length,
    withMarker_of_lt _ hl]
  simp [simBytes, bodyBytes, List.length_append, headerBytes_length, recordBytes_length,
    be32_length]
  omega

theorem simBytes_take_body (a : Nat) (p : List Byte) :
    (simBytes a p).take (27 + p.length) = bodyBytes a p := by
  have hl : 27 + p.length = (bodyBytes a p).length := by rw [bodyBytes_length]; omega
  rw [hl]
  unfold simBytes
  exact List.take_left _ _

theorem simBytes_drop_body (a : Nat) (p : List Byte) :
    (simBytes a p).drop (27 + p.length) = be32 (negate32 (byteSum (bodyBytes a p))) := by
  have hl : 27 + p.length = (bodyBytes a p).length := by rw [bodyBytes_length]; omega
  rw [hl]
  unfold simBytes
  exact List.drop_left _ _

theorem negate32_lt (s : Nat) : negate32 s < 2 ^ 32 := Nat.mod_lt _ (by decide)

/-- When more than `INT_MAX` bytes are to be copied and the reads and writes
up to there succeed, the copy loop reaches `i++` with `i = INT_MAX`. -/
theorem WriteDataRecord_loop_overflow (p : List Byte) (w r : Option Nat) (n : Nat)
    (hn : INT_MAX < n) (hp : INT_MAX < p.length) :
    ∀ (m i : Nat) (d : List Byte), i + m = INT_MAX →
      WriteDataRecord_loop n i ⟨p, i, none, w⟩ ⟨d, d.length, r, none⟩ = none := by
  intro m
  induction m with
  | zero =>
    intro i d hi
    have hlt : i < p.length := by omega
    rw [WriteDataRecord_loop_copy n i _ _ _ _ _ _ (by omega) (fread_some p i w hlt)
      (fwrite_end [p[i]] 1 d r (by simp)) (by simp), if_pos (by omega)]
  | succ m ih =>
    intro i d hi
    have hlt : i < p.length := by omega
    rw [WriteDataRecord_loop_copy n i _ _ _ _ _ _ (by omega) (fread_some p i w hlt)
      (fwrite_end [p[i]] 1 d r (by simp)) (by simp), if_neg (by omega)]
    have h := ih (i + 1) (d ++ [p[i]]) (by omega)
    simp only [List.length_append, List.length_singleton] at h
    simp only [List.take_succ_cons, List.take_zero, List.length_singleton]
    exact h

theorem WriteDataRecord_overflow (p d : List Byte) (ipos opos : Nat) (w r : Option Nat)
    (a : Nat) (hd : d.length = 14) (hn : INT_MAX < toUInt p.length) :
    WriteDataRecord ⟨p, ipos, none, w⟩ ⟨d, opos, r, none⟩ a = none := by
  have hle : toUInt p.length ≤ p.length := Nat.mod_le _ _
  simp only [WriteDataRecord, GetFileSize_eq, fseek_SET, List.set, field3, field2, field1,
    field0, HEADER_SIZE_BYTES]
  rw [← hd, fwrite_end _ _ d r (by simp)]
  simp only [List.take_succ_cons, List.take_zero, List.length_cons, List.length_nil,
    Nat.succ_ne_zero, if_false]
  have h := WriteDataRecord_loop_overflow p w r (toUInt p.length) hn (by omega) INT_MAX 0
    (d ++ recordBytes a (toUInt p.length)) (Nat.zero_add _)
  simp only [List.length_append, recordBytes, be32, List.length_cons, List.length_nil,
    List.cons_append, List.nil_append] at h
  exact h

/-- The run of the stages has no defined result when the declared size of
the payload exceeds `INT_MAX` and no read or write fails. -/
theorem mainStages_overflow (p : List Byte) (a : Nat) (hn : INT_MAX < toUInt p.length) :
    mainStages (stream p) (stream []) a = none := by
  unfold mainStages stream
  rw [GetFileSize_eq]
  dsimp only
  rw [WriteHeader_eq]
  dsimp only
  rw [List.drop_nil, List.append_nil,
    WriteDataRecord_overflow p _ _ _ none none a (by simp [headerBytes, be32]) hn]
  rfl

/-- A payload of `2^31` zero bytes: the smallest size at which the counter
of the copy loop overflows. -/
theorem mainStages_zeros_overflow (a : Nat) :
    mainStages (stream (List.replicate 2147483648 0)) (stream []) a = none := by
  apply mainStages_overflow
  rw [List.length_replicate]
  decide

/-! ## A read error in the input stream -/

/-- With three or five arguments, an input that opens, an output that opens
and a well-formed option, `main` runs the stages and, when their behaviour
is defined, closes both streams and returns 0. -/
theorem main_run (strtoul : String → Nat) (env : Env) (argv : List String) (p : List Byte)
    (a : Nat) (hargc : argv.length = 3 ∨ argv.length = 5) (hin : env.input = some p)
    (hout : env.outputOpens = true) (ha : start_address_of strtoul argv = some a) :
    main strtoul env argv =
      (mainStages ⟨p, 0, env.inputReads, none⟩ ⟨[], 0, env.outputReads, env.outputWrites⟩ a).map
        (fun r =>
          { exit := 0, printed := [], fopenIn := true, fopenOut := true, fcloseIn := true,
            fcloseOut := true, run := some r, output := some r.fout.data }) := by
  have h1 : ¬ (argv.length ≠ 3 ∧ argv.length ≠ 5) := by omega
  unfold main
  simp only [h1, if_false, hin, hout, ha, Bool.true_eq_false]
  cases mainStages ⟨p, 0, env.inputReads, none⟩ ⟨[], 0, env.outputReads, env.outputWrites⟩ a <;>
    rfl

/-- With an argument count other than 3 and 5, `main` prints the usage
message and returns 1 before any `fopen`. -/
theorem main_bad_argc (strtoul : String → Nat) (env : Env) (argv : List String)
    (hargc : argv.length ≠ 3 ∧ argv.length ≠ 5) :
    main strtoul env argv =
      some { exit := 1, printed := usageMessage, fopenIn := false, fopenOut := false,
             fcloseIn := false, fcloseOut := false, run := none, output := env.prior } := by
  unfold main
  simp only [hargc, ne_eq, not_false_eq_true, and_self, if_true]

/-- With a malformed option, `main` reaches `paramError` after both files
have been opened: the output file has been created or truncated. -/
theorem main_bad_option (strtoul : String → Nat) (env : Env) (argv : List String)
    (p : List Byte) (hargc : argv.length = 3 ∨ argv.length = 5) (hin : env.input = some p)
    (hout : env.outputOpens = true) (ha : start_address_of strtoul argv = none) :
    main strtoul env argv =
      some { exit := 1, printed := usageMessage, fopenIn := true, fopenOut := true,
             fcloseIn := false, fcloseOut := false, run := none, output := some [] } := by
  have h1 : ¬ (argv.length ≠ 3 ∧ argv.length ≠ 5) := by omega
  unfold main
  simp only [h1, if_false, hin, hout, ha, Bool.true_eq_false]

/-! ## The stages on any prior contents of the output -/

theorem le_INT_MAX_of_lt (n : Nat) (h : n < 2 ^ 31) : n ≤ INT_MAX := by
  unfold INT_MAX
  omega

/-! ## C1: the length of the output file -/

/-- C2: for every `program_size < 2^32`, `WriteHeader` on an output stream
whose writes do not fail returns 0 and leaves at offsets 0-13 exactly the 14
bytes `7F 49 41 52`, `00 00 00 00`, the big-endian encoding of
`program_size`, `00 00` (whatever lay beyond offset 13 stays); bytes 8-11
read as a big-endian unsigned integer equal `program_size` and bytes 12-13
are zero. -/
theorem C2_WriteHeader_bytes (d : List Byte) (pos : Nat) (r : Option Nat) (program_size : Nat)
    (h : program_size < 2 ^ 32) :
    (WriteHeader ⟨d, pos, r, none⟩ program_size).1 = 0 ∧
    (WriteHeader ⟨d, pos, r, none⟩ program_size).2.data =
      [0x7f, 0x49, 0x41, 0x52, 0x00, 0x00, 0x00, 0x00,
        toByte (program_size / 2 ^ 24), toByte (program_size / 2 ^ 16),
        toByte (program_size / 2 ^ 8), toByte program_size, 0x00, 0x00] ++ d.drop 14 ∧
    (WriteHeader ⟨d, pos, r, none⟩ program_size).2.pos = 14 ∧
    beValue (((WriteHeader ⟨d, pos, r, none⟩ program_size).2.data.drop 8).take 4)
      = program_size ∧
    ((WriteHeader ⟨d, pos, r, none⟩ program_size).2.data.drop 12).take 2 = [0x00, 0x00] := by
  rw [WriteHeader_eq]
  refine ⟨rfl, rfl, rfl, ?_, rfl⟩
  exact beValue_be32 program_size h

/-- Witness for C2: the header of a three-byte program on an empty output. -/
theorem C2_WriteHeader_bytes_witness :
    (WriteHeader ⟨[], 0, none, none⟩ 3).1 = 0 ∧
    (WriteHeader ⟨[], 0, none, none⟩ 3).2.data =
      [0x7f, 0x49, 0x41, 0x52, 0x00, 0x00, 0x00, 0x00,
        toByte (3 / 2 ^ 24), toByte (3 / 2 ^ 16),
        toByte (3 / 2 ^ 8), toByte 3, 0x00, 0x00] ++ ([] : List Byte).drop 14 ∧
    (WriteHeader ⟨[], 0, none, none⟩ 3).2.pos = 14 ∧
    beValue (((WriteHeader ⟨[], 0, none, none⟩ 3).2.data.drop 8).take 4) = 3 ∧
    ((WriteHeader ⟨[], 0, none, none⟩ 3).2.data.drop 12).take 2 = [0x00, 0x00] :=
  C2_WriteHeader_bytes [] 0 none 3 (by decide)

/-! ## C3: the descriptor of the data record -/

/-- C7 (as amended): for every payload of length `S < 2^31` and every load
address, the run produces an output file in which the sum modulo `2^32` of
all bytes up to and including the end marker, plus the checksum taken as one
32-bit big-endian value (not its four bytes added one by one), is 0 modulo
`2^32`. -/
theorem C7_sum_plus_checksum (p : List Byte) (a : Nat) (h : p.length < 2 ^ 31) :
    ∃ r, mainStages (stream p) (stream []) a = some r ∧
      (byteSum (r.fout.data.take (27 + p.length)) +
        beValue (r.fout.data.drop (27 + p.length))) % 2 ^ 32 = 0 := by
  refine ⟨_, mainStages_small p a (le_INT_MAX_of_lt _ h), ?_⟩
  simp only [simBytes_take_body, simBytes_drop_body]
  rw [beValue_be32 _ (negate32_lt _)]
  have hs := byteSum_lt (bodyBytes a p)
  generalize byteSum (bodyBytes a p) = s at hs
  simp only [negate32, UINT_MOD] at hs ⊢
  omega

/-- Witness for C7 (as amended): the empty payload loaded at address 0. -/
theorem C7_sum_plus_checksum_witness :
    ∃ r, mainStages (stream []) (stream []) 0 = some r ∧
      (byteSum (r.fout.data.take (27 + ([] : List Byte).length)) +
        beValue (r.fout.data.drop (27 + ([] : List Byte).length))) % 2 ^ 32 = 0 :=
  C7_sum_plus_checksum [] 0 (by decide)

/-- C7 fails as stated: for the empty payload loaded at address 0 the bytes
up to and including the end marker sum to `0x160`, and adding the four
checksum bytes `FF FF FE A0` one by one into the same 32-bit accumulator
gives `0x4FC`, not 0.  (And for a payload of `2^31` bytes the run has no
defined result at all: the counter of the copy loop overflows.) -/
theorem C7_counterexample :
    (∃ r, mainStages (stream []) (stream []) 0 = some r ∧
      byteSum (r.fout.data.take 27) = 0x160 ∧
      r.fout.data.drop 27 = [0xFF, 0xFF, 0xFE, 0xA0] ∧
      List.foldl (fun s (b : Byte) => toUInt (s + b.val))
          (byteSum (r.fout.data.take 27)) (r.fout.data.drop 27) = 0x4FC ∧
      byteSum r.fout.data ≠ 0) ∧
    mainStages (stream (List.replicate 2147483648 0)) (stream []) 0 = none := by
  refine ⟨⟨_, mainStages_small [] 0 (by decide), ?_⟩, mainStages_zeros_overflow 0⟩
  decide

/-! ## C8: the three-byte scenario -/

/-- C8 (as amended): for the input payload `10 20 30` with load address 0
every stage returns 0 and the output is the 34-byte file made of the header
`7F 49 41 52 00 00 00 00 00 00 00 03 00 00`, the data record
`01 01 00 00 00 00 00 00 00 00 00 03` followed by `10 20 30`, the end marker
`03`, and the checksum of the preceding 30 bytes, whose byte sum is `0x1C6`,
so the final four bytes are `FF FF FE 3A`. -/
theorem C8_scenario :
    ∃ r, mainStages (stream [0x10, 0x20, 0x30]) (stream []) 0 = some r ∧
      r.header = some 0 ∧ r.dataRecord = some 0 ∧ r.endRecord = some 0 ∧
      r.fout.data =
        [0x7F, 0x49, 0x41, 0x52, 0x00, 0x00, 0x00, 0x00, 0x00, 0x00, 0x00, 0x03, 0x00, 0x00,
         0x01, 0x01, 0x00, 0x00, 0x00, 0x00, 0x00, 0x00, 0x00, 0x00, 0x00, 0x03,
         0x10, 0x20, 0x30,
         0x03,
         0xFF, 0xFF, 0xFE, 0x3A] ∧
      r.fout.data.length = 34 ∧
      byteSum (r.fout.data.take 30) = 0x1C6 := by
  refine ⟨_, mainStages_small [0x10, 0x20, 0x30] 0 (by decide), ?_⟩
  decide

/-- C8 fails as stated: the output file for the payload `10 20 30` loaded at
address 0 is 34 bytes long (14 + 12 + 3 + 1 + 4), not 35. -/
theorem C8_counterexample :
    ∃ r, mainStages (stream [0x10, 0x20, 0x30]) (stream []) 0 = some r ∧
      r.fout.data.length = 34 ∧ r.fout.data.length ≠ 35 := by
  refine ⟨_, mainStages_small [0x10, 0x20, 0x30] 0 (by decide), ?_⟩
  decide

/-! ## C9: the empty payload -/

/-- C9: for the empty payload and every load address `a`, every stage returns
0, `WriteDataRecord` leaves the output at exactly the 26 bytes of header and
descriptor (the copy loop writes no payload byte), and the output file is
exactly 31 bytes: the header with size field `00 00 00 00`, the descriptor
`01 01 00 00`, big-endian `a`, `00 00 00 00`, the end marker `03` at offset
26, and the 4-byte checksum of the 27 bytes before it, which is
`FF FF FE A0` when `a = 0`. -/
theorem C9_empty_payload (a : Nat) :
    (∃ r, mainStages (stream []) (stream []) a = some r ∧
      r.header = some 0 ∧ r.dataRecord = some 0 ∧ r.endRecord = some 0 ∧
      r.fout.data.length = 31 ∧
      r.fout.data.take 27 =
        [0x7F, 0x49, 0x41, 0x52, 0x00, 0x00, 0x00, 0x00, 0x00, 0x00, 0x00, 0x00, 0x00, 0x00,
         0x01, 0x01, 0x00, 0x00,
         toByte (a / 2 ^ 24), toByte (a / 2 ^ 16), toByte (a / 2 ^ 8), toByte a,
         0x00, 0x00, 0x00, 0x00,
         0x03] ∧
      r.fout.data[26]? = some 0x03 ∧
      r.fout.data.drop 27 = be32 (negate32 (byteSum (r.fout.data.take 27)))) ∧
    (WriteDataRecord (GetFileSize (stream [])).2
        (WriteHeader (stream []) (GetFileSize (stream [])).1).2 a).map
          (fun t => (t.1, t.2.2.data)) =
      some (0,
        [0x7F, 0x49, 0x41, 0x52, 0x00, 0x00, 0x00, 0x00, 0x00, 0x00, 0x00, 0x00, 0x00, 0x00,
         0x01, 0x01, 0x00, 0x00,
         toByte (a / 2 ^ 24), toByte (a / 2 ^ 16), toByte (a / 2 ^ 8), toByte a,
         0x00, 0x00, 0x00, 0x00]) ∧
    (mainStages (stream []) (stream []) 0).map (fun r => r.fout.data.drop 27)
      = some [0xFF, 0xFF, 0xFE, 0xA0] := by
  have ht : (simBytes a []).take 27 = bodyBytes a [] := simBytes_take_body a []
  have hd : (simBytes a []).drop 27 = be32 (negate32 (byteSum (bodyBytes a []))) :=
    simBytes_drop_body a []
  have h0 : (simBytes 0 []).drop 27 = be32 (negate32 (byteSum (bodyBytes 0 []))) :=
    simBytes_drop_body 0 []
  refine ⟨⟨_, mainStages_small [] a (by decide), rfl, rfl, rfl, ?_, ?_, ?_, ?_⟩, ?_, ?_⟩
  · exact simBytes_length a []
  · exact ht
  · have h26 : (simBytes a [])[26]? = ((simBytes a []).take 27)[26]? :=
      (List.getElem?_take_of_lt (Nat.lt_succ_self 26)).symm
    show (simBytes a [])[26]? = some 0x03
    rw [h26, ht]
    rfl
  · show (simBytes a []).drop 27 = be32 (negate32 (byteSum ((simBytes a []).take 27)))
    rw [ht, hd]
  · unfold stream
    rw [GetFileSize_eq, WriteHeader_eq]
    simp only [List.drop_nil, List.append_nil]
    rw [WriteDataRecord_eq [] _ _ _ none none a (by simp [headerBytes, be32]) (by decide)]
    rfl
  · rw [mainStages_small [] 0 (by decide)]
    show some ((simBytes 0 []).drop 27) = some [0xFF, 0xFF, 0xFE, 0xA0]
    rw [h0]
    decide

/-! ## C10: the size probe -/

/-- C10 (as amended): for every stream of fewer than `2^32` bytes, at any
read position, `GetFileSize` returns the total number of bytes in the stream,
leaves its contents as they were, and leaves its position at the end of the
stream (not where it was before the call). -/
theorem C10_GetFileSize (fp : FILE) (h : fp.data.length < 2 ^ 32) :
    (GetFileSize fp).1 = fp.data.length ∧
    (GetFileSize fp).2.data = fp.data ∧
    (GetFileSize fp).2.pos = fp.data.length ∧
    (GetFileSize fp).2.rlimit = fp.rlimit ∧
    (GetFileSize fp).2.wlimit = fp.wlimit := by
  refine ⟨?_, rfl, rfl, rfl, rfl⟩
  exact Nat.mod_eq_of_lt h

/-- Witness for C10 (as amended): a three-byte stream read up to offset 1. -/
theorem C10_GetFileSize_witness :
    (GetFileSize ⟨[0x10, 0x20, 0x30], 1, none, none⟩).1 = 3 ∧
    (GetFileSize ⟨[0x10, 0x20, 0x30], 1, none, none⟩).2.data = [0x10, 0x20, 0x30] ∧
    (GetFileSize ⟨[0x10, 0x20, 0x30], 1, none, none⟩).2.pos = 3 ∧
    (GetFileSize ⟨[0x10, 0x20, 0x30], 1, none, none⟩).2.rlimit = none ∧
    (GetFileSize ⟨[0x10, 0x20, 0x30], 1, none, none⟩).2.wlimit = none :=
  C10_GetFileSize ⟨[0x10, 0x20, 0x30], 1, none, none⟩ (by decide)

/-- C10 fails as stated: on a freshly opened three-byte stream (position 0)
`GetFileSize` returns 3 and leaves the position at 3, not at 0. -/
theorem C10_counterexample :
    (stream [0x10, 0x20, 0x30]).pos = 0 ∧
    (GetFileSize (stream [0x10, 0x20, 0x30])).1 = 3 ∧
    (GetFileSize (stream [0x10, 0x20, 0x30])).2.pos = 3 ∧
    (GetFileSize (stream [0x10, 0x20, 0x30])).2.pos ≠ (stream [0x10, 0x20, 0x30]).pos := by
  decide

/-! ## C11: a read error while the payload is copied -/

/-- C12, the code at the failing input: with five arguments, the option `-x`
instead of `-s`, an input that opens and an output file that already holds
three bytes, `main` prints the usage message and returns 1, but only after
it has called `fopen` on both paths: the output file has been truncated to
length zero, and neither stream is closed by `main`.  With four arguments
(a wrong argument count) nothing is opened and the output file keeps its
bytes. -/
theorem C12_malformed_option_truncates :
    (main (fun _ => 0) ⟨some [0x10], none, true, some [0x01, 0x02, 0x03], none, none⟩
      ["bin2sim", "in.bin", "out.sim", "-x", "0"]) =
      some { exit := 1, printed := usageMessage, fopenIn := true, fopenOut := true,
             fcloseIn := false, fcloseOut := false, run := none, output := some [] } ∧
    (main (fun _ => 0) ⟨some [0x10], none, true, some [0x01, 0x02, 0x03], none, none⟩
      ["bin2sim", "in.bin", "out.sim", "-x"]) =
      some { exit := 1, printed := usageMessage, fopenIn := false, fopenOut := false,
             fcloseIn := false, fcloseOut := false, run := none,
             output := some [0x01, 0x02, 0x03] } := by
  refine ⟨?_, ?_⟩
  · exact main_bad_option _ _ _ [0x10] (Or.inr rfl) rfl rfl rfl
  · exact main_bad_argc _ _ _ (by decide)

/-! ## C13: the exit code -/

/-- C15, the code at the failing inputs, for the empty payload converted
with three arguments.  When the output accepts only 29 bytes, the final
`fwrite` transfers 2 of the 4 checksum bytes, yet `WriteEndRecord` returns 0
as do the stages before it, and the output file is left 29 bytes long.
When the output accepts only 19 bytes, `fwrite` transfers 5 of the 12
descriptor bytes, yet `WriteDataRecord` returns 0 and `WriteEndRecord` is
run (and returns 1, its marker not being written).  When the output accepts
only 10 bytes of the header, `WriteHeader` returns 1 and no later stage
runs. -/
theorem C15_short_write_undetected :
    ((main (fun _ => 0) ⟨some [], none, true, none, none, some 29⟩
        ["bin2sim", "in.bin", "out.sim"]).map (fun o => o.run.map
          (fun r => (r.header, r.dataRecord, r.endRecord, r.fout.data.length))))
      = some (some (some 0, some 0, some 0, 29)) ∧
    ((main (fun _ => 0) ⟨some [], none, true, none, none, some 19⟩
        ["bin2sim", "in.bin", "out.sim"]).map (fun o => o.run.map
          (fun r => (r.header, r.dataRecord, r.endRecord, r.fout.data.length))))
      = some (some (some 0, some 0, some 1, 19)) ∧
    ((main (fun _ => 0) ⟨some [], none, true, none, none, some 10⟩
        ["bin2sim", "in.bin", "out.sim"]).map (fun o => o.run.map
          (fun r => (r.header, r.dataRecord, r.endRecord, r.fout.data.length))))
      = some (some (some 1, none, none, 10)) := by
  have hloop : ∀ fin fout : FILE, WriteDataRecord_loop 0 0 fin fout = some (0, fin, fout) :=
    fun fin fout => WriteDataRecord_loop_done 0 0 fin fout (Nat.lt_irrefl 0)
  refine ⟨?_, ?_, ?_⟩
  · rw [main_run (fun _ => 0) ⟨some [], none, true, none, none, some 29⟩
      ["bin2sim", "in.bin", "out.sim"] [] 0 (Or.inl rfl) rfl rfl rfl]
    simp [mainStages, GetFileSize, fseek_END, fseek_SET, ftell, WriteHeader, WriteDataRecord,
      hloop, WriteEndRecord, CalculateChecksum_eq, fwrite, accepted, toUInt,
      HEADER_SIZE_BYTES, UINT_MOD]
  · rw [main_run (fun _ => 0) ⟨some [], none, true, none, none, some 19⟩
      ["bin2sim", "in.bin", "out.sim"] [] 0 (Or.inl rfl) rfl rfl rfl]
    simp [mainStages, GetFileSize, fseek_END, fseek_SET, ftell, WriteHeader, WriteDataRecord,
      hloop, WriteEndRecord, CalculateChecksum_eq, fwrite, accepted, toUInt,
      HEADER_SIZE_BYTES, UINT_MOD]
  · rw [main_run (fun _ => 0) ⟨some [], none, true, none, none, some 10⟩
      ["bin2sim", "in.bin", "out.sim"] [] 0 (Or.inl rfl) rfl rfl rfl]
    simp [mainStages, GetFileSize, fseek_END, fseek_SET, ftell, WriteHeader, WriteDataRecord,
      hloop, WriteEndRecord, CalculateChecksum_eq, fwrite, accepted, toUInt,
      HEADER_SIZE_BYTES, UINT_MOD]

/-! ## C16: the byte range of each stage -/

end Bin2Sim
